import Mathlib

/-!
Verification of the go-vault-dump core: the secret-tree extraction engine
(ignore filter, retrying store client, walker), the declarative transform
engine, and the command wiring in cmd/vault-dump/main.go and
cmd/transform.go.  The two cmd files are embedded directly from the Go
source; the pkg/vault, pkg/dump, pkg/transform and pkg/aws packages are not
part of the provided sources, so their behavior is modelled from the
specification where noted.
-/

/-! ## Store errors and the retrying client -/

/-- Modelled from the spec: error taxonomy of the external secret store
(pkg/vault is not in the provided sources).  A store primitive fails either
with a retryable Transient error or a non-retryable Permanent error, each
carrying an underlying message. -/
inductive StoreErr where
  | transient : String → StoreErr
  | permanent : String → StoreErr
deriving Repr, DecidableEq

/-- Modelled from the spec: failures surfaced by the RetryingStoreClient:
either all attempts were consumed (carrying the last underlying error) or a
Permanent error was passed through unchanged. -/
inductive RetryErr where
  | retriesExhausted : String → RetryErr
  | permanent : String → RetryErr
deriving Repr, DecidableEq

/-- Modelled from the spec: the bounded retry loop of the
RetryingStoreClient.  The primitive operation is indexed by the attempt
number (attempts count from 1).  Returns the outcome together with the
number of attempts actually issued.  A Transient failure is retried while
attempts remain; a Permanent failure or a success stops immediately. -/
def retryLoop {α : Type} (op : Nat → Except StoreErr α) : Nat → Nat → Except RetryErr α × Nat
  | _, 0 => (.error (.retriesExhausted "retry loop not entered"), 0)
  | a, r + 1 =>
    match op a with
    | .ok v => (.ok v, 1)
    | .error (.permanent m) => (.error (.permanent m), 1)
    | .error (.transient m) =>
      if r = 0 then (.error (.retriesExhausted m), 1)
      else
        match retryLoop op (a + 1) r with
        | (res, n) => (res, n + 1)

/-- Modelled from the spec: run a store primitive under the configured
maximum attempt count, starting the attempt counter at 1. -/
def withRetry {α : Type} (maxAttempts : Nat) (op : Nat → Except StoreErr α) :
    Except RetryErr α × Nat :=
  retryLoop op 1 maxAttempts

/-- The retry count the CLI configures for the vault client
(vault.Config Retries field in cmd/vault-dump/main.go). -/
def cliRetries : Nat := 5

/-! ## Ignore filter -/

/-- The ignore configuration handed to vault.NewClient in
cmd/vault-dump/main.go (vault.Ignore with Keys and Paths).  Paths are
SecretPaths, i.e. ordered sequences of segments; per the spec, path
comparisons are segment-wise. -/
structure Ignore where
  keys : List String
  paths : List (List String)

/-- Modelled from the spec: shouldSkipPath returns true iff the path
equals, or is a descendant of, an entry of ignoredPaths; being under a
path is exact segment-wise matching. -/
def shouldSkipPath (ig : Ignore) (p : List String) : Bool :=
  ig.paths.any (fun q => q.isPrefixOf p)

/-- Modelled from the spec: shouldSkipKey returns true iff the key is a
member of ignoredKeys, independent of the path it appears at. -/
def shouldSkipKey (ig : Ignore) (k : String) : Bool :=
  ig.keys.contains k

/-! ## The secret-tree walker -/

/-- The ResultTree: a node is either a leaf holding key-value pairs or a
branch holding named subtrees. -/
inductive RTree where
  | leaf : List (String × String) → RTree
  | branch : List (String × RTree) → RTree

/-- Which primitive a store call used. -/
inductive CallKind where
  | listKids
  | readKV
deriving Repr, DecidableEq

/-- One logical store call issued by the walker: the primitive, the path it
was issued for, and how many attempts the retry wrapper made. -/
structure Call where
  kind : CallKind
  path : List String
  attempts : Nat

/-- Modelled from the spec: walker failures.  extractionFailed wraps the
failing path together with the underlying cause; depthExhausted is the
fuel bound of the embedding (the real hierarchy is finite). -/
inductive WalkErr where
  | extractionFailed : List String → RetryErr → WalkErr
  | depthExhausted : List String → WalkErr

/-- Modelled from the spec: the external store interface, listChildren and
readLeaf, each indexed by the retry attempt number so that stubs may fail
on some attempts and succeed on others. -/
structure Store where
  listChildren : List String → Nat → Except StoreErr (List String)
  readLeaf : List String → Nat → Except StoreErr (List (String × String))

/-- Walk a list of child segments with a given per-path walk function,
collecting named subtrees in store order and concatenating the call logs.
A child whose walk is skipped contributes nothing; the first failure aborts
the whole walk. -/
def walkKids (w : List String → Except WalkErr (Option RTree) × List Call)
    (p : List String) : List String → Except WalkErr (List (String × RTree)) × List Call
  | [] => (.ok [], [])
  | c :: cs =>
    match w (p ++ [c]) with
    | (.error e, log) => (.error e, log)
    | (.ok sub, log) =>
      match walkKids w p cs with
      | (.error e, log2) => (.error e, log ++ log2)
      | (.ok subs, log2) =>
        match sub with
        | none => (.ok subs, log ++ log2)
        | some t => (.ok ((c, t) :: subs), log ++ log2)

/-- Modelled from the spec: the SecretTreeWalker (pkg/vault and pkg/dump
are not in the provided sources).  Depth-first traversal: a skipped path
terminates the branch with no store call; an empty child list signals a
leaf whose keys are filtered by shouldSkipKey before insertion (an emptied
leaf is still recorded); a branch recurses into each child in store order.
The walker returns the optional subtree together with the log of store
calls it issued.  Fuel bounds the recursion depth of the embedding. -/
def walkAux (st : Store) (ig : Ignore) (retries : Nat) :
    Nat → List String → Except WalkErr (Option RTree) × List Call
  | 0, p => (.error (.depthExhausted p), [])
  | fuel + 1, p =>
    if shouldSkipPath ig p = true then (.ok none, [])
    else
      match withRetry retries (st.listChildren p) with
      | (.error e, n) => (.error (.extractionFailed p e), [⟨CallKind.listKids, p, n⟩])
      | (.ok [], n) =>
        match withRetry retries (st.readLeaf p) with
        | (.error e, m) =>
          (.error (.extractionFailed p e), [⟨CallKind.listKids, p, n⟩, ⟨CallKind.readKV, p, m⟩])
        | (.ok kvs, m) =>
          (.ok (some (.leaf (kvs.filter (fun kv => !shouldSkipKey ig kv.1)))),
            [⟨CallKind.listKids, p, n⟩, ⟨CallKind.readKV, p, m⟩])
      | (.ok (c :: cs), n) =>
        match walkKids (fun q => walkAux st ig retries fuel q) p (c :: cs) with
        | (.error e, log) => (.error e, ⟨CallKind.listKids, p, n⟩ :: log)
        | (.ok subs, log) => (.ok (some (.branch subs)), ⟨CallKind.listKids, p, n⟩ :: log)

/-- Association lookup among a branch's named subtrees. -/
def findA : List (String × RTree) → String → Option RTree
  | [], _ => none
  | (k, v) :: rest, s => if k = s then some v else findA rest s

/-- The immediate child of a tree node under a segment name. -/
def childOf : RTree → String → Option RTree
  | .leaf _, _ => none
  | .branch cs, s => findA cs s

/-- Whether the tree has a node at the given relative path. -/
def hasNodeB : RTree → List String → Bool
  | _, [] => true
  | t, s :: q =>
    match childOf t s with
    | none => false
    | some t2 => hasNodeB t2 q

/-- The key-value pairs of the leaf at the given relative path, if any. -/
def leafAt : RTree → List String → Option (List (String × String))
  | .leaf kvs, [] => some kvs
  | .branch _, [] => none
  | t, s :: q =>
    match childOf t s with
    | none => none
    | some t2 => leafAt t2 q

/-- Every node of the tree, read relative to the base path, sits at a path
the ignore filter does not skip. -/
def noSkippedNode (ig : Ignore) (base : List String) (t : RTree) : Prop :=
  ∀ q, hasNodeB t q = true → shouldSkipPath ig (base ++ q) = false

/-- No leaf of the tree retains a key the ignore filter drops. -/
def noIgnoredKey (ig : Ignore) (t : RTree) : Prop :=
  ∀ q kvs kv, leafAt t q = some kvs → kv ∈ kvs → shouldSkipKey ig kv.1 = false

/-! ## Documents and the transform engine -/

mutual
/-- A document value: a string leaf or a nested mapping, mirroring the
JSON documents cmd/transform.go loads (map from string to value). -/
inductive Doc where
  | str : String → Doc
  | map : Entries → Doc

/-- The ordered entries of a nested mapping. -/
inductive Entries where
  | enil : Entries
  | econs : String → Doc → Entries → Entries
end

/-- Look a key up among entries. -/
def Entries.find : Entries → String → Option Doc
  | .enil, _ => none
  | .econs k v rest, s => if k = s then some v else Entries.find rest s

/-- Overwrite the value under a key, or append the binding if absent. -/
def Entries.setKey : Entries → String → Doc → Entries
  | .enil, s, v => .econs s v .enil
  | .econs k w rest, s, v =>
    if k = s then .econs k v rest else .econs k w (Entries.setKey rest s v)

/-- Remove every binding of a key; absent keys are a no-op. -/
def Entries.removeKey : Entries → String → Entries
  | .enil, _ => .enil
  | .econs k w rest, s =>
    if k = s then Entries.removeKey rest s else .econs k w (Entries.removeKey rest s)

/-- Modelled from the spec: the cause of a transform failure, a
rule/document shape mismatch at the offending locator (descending through
a non-mapping value). -/
inductive TCause where
  | shapeMismatch : List String → TCause

/-- Modelled from the spec: TransformFailed wraps the index of the failing
rule in the sequence together with the cause. -/
inductive TransformErr where
  | transformFailed : Nat → TCause → TransformErr

/-- One piece of a template: a literal fragment or a locator reference. -/
inductive TPart where
  | lit : String → TPart
  | ref : List String → TPart

/-- Modelled from the spec: one TransformRule of the ordered rule set
(pkg/transform is not in the provided sources): delete, rename/move,
set/literal, or template-substitute. -/
inductive Rule where
  | del : List String → Rule
  | move : List String → List String → Rule
  | setLit : List String → String → Rule
  | subst : List String → List TPart → Rule

/-- Modelled from the spec: read the value at a locator.  Descending
through a non-mapping value is a shape mismatch; an absent key resolves to
none rather than an error. -/
def getLoc : Doc → List String → Except TCause (Option Doc)
  | d, [] => .ok (some d)
  | .str _, loc => .error (.shapeMismatch loc)
  | .map es, k :: rest =>
    match es.find k with
    | none => .ok none
    | some d => getLoc d rest

/-- Modelled from the spec: insert or overwrite a value at a locator,
creating intermediate mappings for absent keys; descending through a
non-mapping value is a shape mismatch. -/
def setLoc : Doc → List String → Doc → Except TCause Doc
  | _, [], v => .ok v
  | .str _, loc, _ => .error (.shapeMismatch loc)
  | .map es, k :: rest, v =>
    match es.find k with
    | none =>
      match setLoc (.map .enil) rest v with
      | .error e => .error e
      | .ok d2 => .ok (.map (es.setKey k d2))
    | some d =>
      match setLoc d rest v with
      | .error e => .error e
      | .ok d2 => .ok (.map (es.setKey k d2))

/-- Modelled from the spec: remove the subtree or leaf at a locator; a
locator pointing to a nonexistent path is a no-op; a mapping emptied by
the removal is pruned from its parent; descending through a non-mapping
value is a shape mismatch. -/
def delLoc : Doc → List String → Except TCause Doc
  | d, [] => .ok d
  | .str _, loc => .error (.shapeMismatch loc)
  | .map es, [k] => .ok (.map (es.removeKey k))
  | .map es, k :: r :: rest =>
    match es.find k with
    | none => .ok (.map es)
    | some sub =>
      match delLoc sub (r :: rest) with
      | .error e => .error e
      | .ok (.map .enil) => .ok (.map (es.removeKey k))
      | .ok sub2 => .ok (.map (es.setKey k sub2))

/-- Modelled from the spec: substitute referenced locators into a
template; a missing reference resolves to the empty string. -/
def substTemplate (d : Doc) : List TPart → Except TCause String
  | [] => .ok ""
  | .lit s :: rest =>
    match substTemplate d rest with
    | .error e => .error e
    | .ok tail => .ok (s ++ tail)
  | .ref loc :: rest =>
    match getLoc d loc with
    | .error e => .error e
    | .ok none =>
      match substTemplate d rest with
      | .error e => .error e
      | .ok tail => .ok tail
    | .ok (some (.str s)) =>
      match substTemplate d rest with
      | .error e => .error e
      | .ok tail => .ok (s ++ tail)
    | .ok (some (.map _)) => .error (.shapeMismatch loc)

/-- Modelled from the spec: apply one rule to the current working
document. -/
def applyRule (d : Doc) : Rule → Except TCause Doc
  | .del loc => delLoc d loc
  | .move src dst =>
    match getLoc d src with
    | .error e => .error e
    | .ok none => .ok d
    | .ok (some v) =>
      match delLoc d src with
      | .error e => .error e
      | .ok d2 => setLoc d2 dst v
  | .setLit loc v => setLoc d loc (.str v)
  | .subst dst parts =>
    match substTemplate d parts with
    | .error e => .error e
    | .ok s => setLoc d dst (.str s)

/-- Modelled from the spec: apply the rules in order starting from the
given rule index, each rule observing the document state left by the
earlier rules; a failing rule aborts with its index attached. -/
def applyRulesFrom : List Rule → Nat → Doc → Except TransformErr Doc
  | [], _, d => .ok d
  | r :: rs, i, d =>
    match applyRule d r with
    | .error c => .error (.transformFailed i c)
    | .ok d2 => applyRulesFrom rs (i + 1) d2

/-- Modelled from the spec: TransformEngine.apply runs one full
apply-all-rules pass over the document from a clean rule cursor. -/
def TransformEngine.apply (rules : List Rule) (d : Doc) : Except TransformErr Doc :=
  applyRulesFrom rules 0 d

mutual
/-- The deep copy of a document (the fresh working copy the engine
operates on per the spec). -/
def copyDoc : Doc → Doc
  | .str s => .str s
  | .map es => .map (copyEntries es)

/-- The deep copy of mapping entries. -/
def copyEntries : Entries → Entries
  | .enil => .enil
  | .econs k v rest => .econs k (copyDoc v) (copyEntries rest)
end

/-! ## cmd/transform.go -/

/-- The top-level value of a parsed JSON text: an object (which
unmarshals into a map from string to value) or some non-object value,
described by its kind. -/
inductive JTop where
  | jObj : Entries → JTop
  | jNonObj : String → JTop

/-- The external capabilities cmd/transform.go uses: file reading, JSON
parsing, decoding of the loaded transform definition into the ordered rule
set, and serialization of the result. -/
structure TransformCtx where
  readFile : String → Except String String
  parseJson : String → Except String JTop
  rulesOf : Entries → List Rule
  marshal : Doc → String

/-- json.Unmarshal into a map from string to value: fails on malformed
input and on a non-object top-level value. -/
def unmarshalMap (ctx : TransformCtx) (s : String) : Except String Entries :=
  match ctx.parseJson s with
  | .error e => .error e
  | .ok (.jObj m) => .ok m
  | .ok (.jNonObj d) =>
    .error ("json: cannot unmarshal " ++ d ++ " into Go value of type map[string]interface\x7b\x7d")

/-- loadJson from cmd/transform.go: read the file, unmarshal into a map;
on either failure return a fresh empty map together with the error. -/
def loadJson (ctx : TransformCtx) (p : String) : Entries × Option String :=
  match ctx.readFile p with
  | .error e => (.enil, some e)
  | .ok data =>
    match unmarshalMap ctx data with
    | .error e => (.enil, some e)
    | .ok dd => (dd, none)

/-- Modelled from the spec: pkg/transform.Transform (not in the provided
sources) decodes the loaded rule set and runs the TransformEngine over the
secrets document, surfacing the failing rule index. -/
def transformGo (ctx : TransformCtx) (transforms secrets : Entries) : Except String Doc :=
  match TransformEngine.apply (ctx.rulesOf transforms) (.map secrets) with
  | .error (.transformFailed i _) => .error ("transform failed at rule " ++ toString i)
  | .ok d => .ok d

/-- doTransform from cmd/transform.go: load the transform definition and
the secrets file, run the transform, marshal, and return the text that is
printed; any failure is returned unchanged and nothing is printed. -/
def doTransform (ctx : TransformCtx) (applyPath : String) (args : List String) :
    Except String String :=
  match loadJson ctx applyPath with
  | (_, some e) => .error e
  | (transforms, none) =>
    match loadJson ctx (args.getD 0 "") with
    | (_, some e) => .error e
    | (secrets, none) =>
      match transformGo ctx transforms secrets with
      | .error e => .error e
      | .ok data => .ok (ctx.marshal data)

/-- What the transform subcommand prints: the marshalled document on
success, nothing on failure. -/
def transformOutput (ctx : TransformCtx) (applyPath : String) (args : List String) :
    Option String :=
  match doTransform ctx applyPath args with
  | .ok s => some s
  | .error _ => none

/-! ## cmd/vault-dump/main.go -/

/-- Segment-wise check that a character list begins with a given list. -/
def listStartsWith : List Char → List Char → Bool
  | [], _ => true
  | _ :: _, [] => false
  | c :: cs, d :: ds => c == d && listStartsWith cs ds

/-- The S3 destination check of cmd/vault-dump/main.go: the path has at
least five characters and its first five are s3://. -/
def hasS3Scheme (s : String) : Bool :=
  listStartsWith "s3://".data s.data

/-- The externally observable effects of one run of the root command. -/
inductive Effect where
  | tempDirCreated : String → Effect
  | dumpWritten : String → Effect
  | encrypted : String → Effect
  | uploaded : String → Effect
  | removedAll : String → Effect
deriving Repr, DecidableEq

/-- How the run function ends: a cobra return value (nil or an error
message), or the immediate process abort of log.Fatal. -/
inductive RunOutcome where
  | returned : Option String → RunOutcome
  | fatal : RunOutcome
deriving Repr, DecidableEq

/-- The environment the run function executes against: the results of the
external collaborators it calls, in program order.  getPathForOutput
stands for dump.GetPathForOutput, whose source is not provided. -/
structure RunEnv where
  clientErr : Option String
  tmpDir : String
  tmpDirErr : Bool
  getPathForOutput : String → String
  newOutputErr : Option String
  newDumperErr : Option String
  secretsErr : Option String
  encryptErr : Option String
  uploadErr : Option String

/-- The dump-and-upload pipeline of the run function (cmd/vault-dump/
main.go lines 104-142): build the output configuration and the dumper,
dump the secrets, and for S3 output encrypt the staged artifact and upload
it to the destination.  outPath is the normalized output path. -/
def runBody (env : RunEnv) (output encoding fname s3path outPath : String) :
    RunOutcome × List Effect :=
  match env.newOutputErr with
  | some e => (.returned (some e), [])
  | none =>
    match env.newDumperErr with
    | some e => (.returned (some e), [])
    | none =>
      match env.secretsErr with
      | some e => (.returned (some e), [])
      | none =>
        let artifact := outPath ++ "/" ++ fname ++ "." ++ encoding
        if output = "s3" then
          match env.encryptErr with
          | some e => (.returned (some e), [.dumpWritten artifact])
          | none =>
            match env.uploadErr with
            | some e => (.returned (some e), [.dumpWritten artifact, .encrypted artifact])
            | none =>
              (.returned none,
                [.dumpWritten artifact, .encrypted artifact,
                  .uploaded (s3path ++ "/" ++ fname ++ "." ++ encoding)])
        else (.returned none, [.dumpWritten artifact])

/-- The tail of the run function after the deferred os.RemoveAll is
registered (cmd/vault-dump/main.go lines 101-142).  removeTarget is the
value of outputPath when the defer statement executes; the deferred
removal runs on every return path, so it is appended to every trace.  pre
holds the effects already performed before this point. -/
def afterDefer (env : RunEnv) (output encoding fname s3path removeTarget : String)
    (pre : List Effect) : RunOutcome × List Effect :=
  let body := runBody env output encoding fname s3path (env.getPathForOutput removeTarget)
  (body.1, pre ++ body.2 ++ [.removedAll removeTarget])

/-- The RunE closure of the root command (cmd/vault-dump/main.go lines
65-143): create the vault client, read the destination argument, validate
the S3 configuration when the output mode is s3 (KMS key present,
destination present, destination begins with s3://), replace the output
path by a fresh temporary directory for S3 runs, register the deferred
cleanup, and run the dump and upload pipeline. -/
def runE (env : RunEnv) (output kmsKey encoding fname : String) (args : List String) :
    RunOutcome × List Effect :=
  match env.clientErr with
  | some e => (.returned (some e), [])
  | none =>
    let outputPath := args.getD 1 ""
    if output = "s3" then
      if kmsKey = "" then
        (.returned (some "Error: KMS key must be specified for S3 upload"), [])
      else if outputPath = "" then
        (.returned (some "Error: Must specify an output path for S3 upload"), [])
      else if hasS3Scheme outputPath = false then
        (.returned (some "Error: Output path for S3 upload must begin with s3://"), [])
      else if env.tmpDirErr then (.fatal, [])
      else
        afterDefer env output encoding fname outputPath env.tmpDir
          [.tempDirCreated env.tmpDir]
    else afterDefer env output encoding fname "" outputPath []

/-- main from cmd/vault-dump/main.go: a failing Execute is passed to
exitErr, which logs the error and exits with status 1; success exits with
status 0.  Returns the exit code and the reported error. -/
def mainRun : Option String → Nat × Option String
  | some e => (1, some e)
  | none => (0, none)

/-! ## Concrete fixtures for witnesses -/

/-- A store stub that fails every attempt with the same Transient error. -/
def stBoom : Store :=
  { listChildren := fun _ _ => .error (.transient "boom")
    readLeaf := fun _ _ => .error (.transient "boom") }

/-- A store stub that fails every attempt with a Permanent error. -/
def stDenied : Store :=
  { listChildren := fun _ _ => .error (.permanent "denied")
    readLeaf := fun _ _ => .error (.permanent "denied") }

/-- The empty ignore configuration. -/
def igNone : Ignore := { keys := [], paths := [] }

/-- The spec scenario store: a single leaf db with keys user and pass. -/
def stDb : Store :=
  { listChildren := fun p _ => if p = [] then .ok ["db"] else .ok []
    readLeaf := fun p _ =>
      if p = ["db"] then .ok [("user", "alice"), ("pass", "s3cr3t")] else .ok [] }

/-- Ignore configuration dropping the key pass everywhere. -/
def igPass : Ignore := { keys := ["pass"], paths := [] }

/-- A store with a branch db holding children public and private. -/
def stW : Store :=
  { listChildren := fun p _ =>
      if p = [] then .ok ["db"]
      else if p = ["db"] then .ok ["public", "private"]
      else .ok []
    readLeaf := fun _ _ => .ok [("k", "v")] }

/-- Ignore configuration skipping the whole subtree db/private. -/
def igPriv : Ignore := { keys := [], paths := [["db", "private"]] }

/-- A run environment in which every external collaborator succeeds. -/
def envOk : RunEnv :=
  { clientErr := none, tmpDir := "/tmp/vault-dump-123", tmpDirErr := false,
    getPathForOutput := fun s => s, newOutputErr := none, newDumperErr := none,
    secretsErr := none, encryptErr := none, uploadErr := none }

/-- envOk with a failing dump step. -/
def envSecretsBoom : RunEnv := { envOk with secretsErr := some "dump failed" }

/-- A transform context whose file reads fail. -/
def ctxReadFail : TransformCtx :=
  { readFile := fun _ => .error "open: no such file"
    parseJson := fun _ => .error "unexpected end of JSON input"
    rulesOf := fun _ => []
    marshal := fun _ => "" }

/-- A transform context that reads empty objects successfully. -/
def ctxOk : TransformCtx :=
  { readFile := fun _ => .ok "\x7b\x7d"
    parseJson := fun _ => .ok (.jObj .enil)
    rulesOf := fun _ => []
    marshal := fun _ => "\x7b\x7d" }

/-! # Theorems -/

/-! ## Retry client -/

/-- A primitive that fails Transient on every attempt exhausts all
remaining attempts and surfaces the last underlying error. -/
theorem retryLoop_transient {α : Type} (op : Nat → Except StoreErr α) (msgf : Nat → String)
    (h : ∀ n, op n = .error (.transient (msgf n))) :
    ∀ k a, retryLoop op a (k + 1) = (.error (.retriesExhausted (msgf (a + k))), k + 1) := by
  intro k
  induction k with
  | zero =>
    intro a
    rw [retryLoop.eq_def]
    simp [h a]
  | succ k ih =>
    intro a
    have hrec := ih (a + 1)
    have e : a + 1 + k = a + (k + 1) := by omega
    rw [e] at hrec
    rw [retryLoop.eq_def]
    simp [h a, hrec]

/-- A Permanent failure stops the retry loop after a single attempt. -/
theorem retryLoop_permanent {α : Type} (op : Nat → Except StoreErr α) (m : String)
    (a k : Nat) (h : op a = .error (.permanent m)) :
    retryLoop op a (k + 1) = (.error (.permanent m), 1) := by
  rw [retryLoop.eq_def]
  simp [h]

/-- A success on the current attempt stops the retry loop immediately. -/
theorem retryLoop_ok {α : Type} (op : Nat → Except StoreErr α) (v : α)
    (a k : Nat) (h : op a = .ok v) :
    retryLoop op a (k + 1) = (.ok v, 1) := by
  rw [retryLoop.eq_def]
  simp [h]

/-- C3: for every store whose listChildren always fails with a Transient
error at some path, the walk at that path fails with RetriesExhausted
after exactly the CLI-configured 5 attempts, never more, and the failure
carries the last underlying error; a Permanent error is surfaced
immediately after a single attempt with no retry. -/
theorem c3_retry_bound :
    (∀ (st : Store) (ig : Ignore) (p : List String) (msgf : Nat → String) (fuel : Nat),
      shouldSkipPath ig p = false →
      (∀ n, st.listChildren p n = .error (.transient (msgf n))) →
      walkAux st ig cliRetries (fuel + 1) p =
        (.error (.extractionFailed p (.retriesExhausted (msgf 5))),
          [⟨CallKind.listKids, p, 5⟩])) ∧
    (∀ (st : Store) (ig : Ignore) (p : List String) (m : String) (fuel : Nat),
      shouldSkipPath ig p = false →
      st.listChildren p 1 = .error (.permanent m) →
      walkAux st ig cliRetries (fuel + 1) p =
        (.error (.extractionFailed p (.permanent m)), [⟨CallKind.listKids, p, 1⟩])) := by
  constructor
  · intro st ig p msgf fuel hskip h
    have hr : withRetry cliRetries (st.listChildren p) =
        (.error (.retriesExhausted (msgf 5)), 5) := by
      have hx := retryLoop_transient (st.listChildren p) msgf h 4 1
      simpa [withRetry, cliRetries] using hx
    simp [walkAux, hskip, hr]
  · intro st ig p m fuel hskip h
    have hr : withRetry cliRetries (st.listChildren p) = (.error (.permanent m), 1) := by
      have hx := retryLoop_permanent (st.listChildren p) m 1 4 h
      simpa [withRetry, cliRetries] using hx
    simp [walkAux, hskip, hr]

/-- Witness for C3 at concrete stores: the always-Transient stub exhausts
exactly 5 attempts; the Permanent stub is surfaced after 1 attempt. -/
theorem c3_retry_bound_witness :
    shouldSkipPath igNone ["a"] = false ∧
    (∀ n, stBoom.listChildren ["a"] n = .error (.transient "boom")) ∧
    stDenied.listChildren ["a"] 1 = .error (.permanent "denied") ∧
    walkAux stBoom igNone cliRetries 3 ["a"] =
      (.error (.extractionFailed ["a"] (.retriesExhausted "boom")),
        [⟨CallKind.listKids, ["a"], 5⟩]) ∧
    walkAux stDenied igNone cliRetries 3 ["a"] =
      (.error (.extractionFailed ["a"] (.permanent "denied")),
        [⟨CallKind.listKids, ["a"], 1⟩]) :=
  ⟨rfl, fun _ => rfl, rfl,
    c3_retry_bound.1 stBoom igNone ["a"] (fun _ => "boom") 2 rfl (fun _ => rfl),
    c3_retry_bound.2 stDenied igNone ["a"] "denied" 2 rfl rfl⟩

/-! ## Walker invariants -/

/-- Child-walk invariant: under the per-path invariant for the child walk
function, every call logged by walkKids is on a non-skipped path, and
every subtree collected under a segment name satisfies the tree
invariants relative to the extended path. -/
theorem walkKids_inv (st : Store) (ig : Ignore) (r fuel : Nat)
    (ih : ∀ p, (∀ c, c ∈ (walkAux st ig r fuel p).2 → shouldSkipPath ig c.path = false) ∧
      (∀ t, (walkAux st ig r fuel p).1 = .ok (some t) →
        noSkippedNode ig p t ∧ noIgnoredKey ig t)) :
    ∀ (cs : List String) (p : List String),
      (∀ c, c ∈ (walkKids (fun q => walkAux st ig r fuel q) p cs).2 →
        shouldSkipPath ig c.path = false) ∧
      (∀ subs, (walkKids (fun q => walkAux st ig r fuel q) p cs).1 = .ok subs →
        ∀ s t, findA subs s = some t →
          noSkippedNode ig (p ++ [s]) t ∧ noIgnoredKey ig t) := by
  intro cs
  induction cs with
  | nil =>
    intro p
    constructor
    · intro c hc
      simp [walkKids] at hc
    · intro subs hs s t hf
      simp [walkKids] at hs
      subst hs
      simp [findA] at hf
  | cons c0 cs0 ihcs =>
    intro p
    rcases hw : walkAux st ig r fuel (p ++ [c0]) with ⟨wres, wlog⟩
    have hihc := ih (p ++ [c0])
    simp only [hw] at hihc
    rcases hrec : walkKids (fun q => walkAux st ig r fuel q) p cs0 with ⟨rres, rlog⟩
    have hrecinv := ihcs p
    simp only [hrec] at hrecinv
    cases wres with
    | error e =>
      have hval : walkKids (fun q => walkAux st ig r fuel q) p (c0 :: cs0) =
          (.error e, wlog) := by
        simp [walkKids, hw]
      rw [hval]
      constructor
      · intro c hc
        exact hihc.1 c hc
      · intro subs hs
        simp at hs
    | ok sub =>
      cases rres with
      | error e2 =>
        have hval : walkKids (fun q => walkAux st ig r fuel q) p (c0 :: cs0) =
            (.error e2, wlog ++ rlog) := by
          simp [walkKids, hw, hrec]
        rw [hval]
        constructor
        · intro c hc
          rcases List.mem_append.mp hc with hc | hc
          · exact hihc.1 c hc
          · exact hrecinv.1 c hc
        · intro subs hs
          simp at hs
      | ok subs2 =>
        cases sub with
        | none =>
          have hval : walkKids (fun q => walkAux st ig r fuel q) p (c0 :: cs0) =
              (.ok subs2, wlog ++ rlog) := by
            simp [walkKids, hw, hrec]
          rw [hval]
          constructor
          · intro c hc
            rcases List.mem_append.mp hc with hc | hc
            · exact hihc.1 c hc
            · exact hrecinv.1 c hc
          · intro subs hs
            simp at hs
            subst hs
            intro s t hf
            exact hrecinv.2 subs2 rfl s t hf
        | some t0 =>
          have hval : walkKids (fun q => walkAux st ig r fuel q) p (c0 :: cs0) =
              (.ok ((c0, t0) :: subs2), wlog ++ rlog) := by
            simp [walkKids, hw, hrec]
          rw [hval]
          constructor
          · intro c hc
            rcases List.mem_append.mp hc with hc | hc
            · exact hihc.1 c hc
            · exact hrecinv.1 c hc
          · intro subs hs
            simp at hs
            subst hs
            intro s t hf
            by_cases hcs : c0 = s
            · subst hcs
              simp [findA] at hf
              subst hf
              exact hihc.2 t0 rfl
            · simp [findA, hcs] at hf
              exact hrecinv.2 subs2 rfl s t hf

/-- Walker invariant: every store call the walker issues is on a
non-skipped path, and a successfully built subtree has all its nodes on
non-skipped paths and no ignored key in any leaf. -/
theorem walkAux_inv (st : Store) (ig : Ignore) (r : Nat) :
    ∀ (fuel : Nat) (p : List String),
      (∀ c, c ∈ (walkAux st ig r fuel p).2 → shouldSkipPath ig c.path = false) ∧
      (∀ t, (walkAux st ig r fuel p).1 = .ok (some t) →
        noSkippedNode ig p t ∧ noIgnoredKey ig t) := by
  intro fuel
  induction fuel with
  | zero =>
    intro p
    constructor
    · intro c hc
      simp [walkAux] at hc
    · intro t ht
      simp [walkAux] at ht
  | succ fuel ih =>
    intro p
    by_cases hskip : shouldSkipPath ig p = true
    · have hval : walkAux st ig r (fuel + 1) p = (.ok none, []) := by
        rw [walkAux.eq_def]
        simp [hskip]
      rw [hval]
      constructor
      · intro c hc
        simp at hc
      · intro t ht
        simp at ht
    · have hskip' : shouldSkipPath ig p = false := by
        revert hskip
        cases shouldSkipPath ig p <;> simp
      rcases hl : withRetry r (st.listChildren p) with ⟨lres, n⟩
      cases lres with
      | error e =>
        have hval : walkAux st ig r (fuel + 1) p =
            (.error (.extractionFailed p e), [⟨CallKind.listKids, p, n⟩]) := by
          rw [walkAux.eq_def]
          simp [hskip', hl]
        rw [hval]
        constructor
        · intro c hc
          simp at hc
          simp [hc, hskip']
        · intro t ht
          simp at ht
      | ok cs =>
        cases cs with
        | nil =>
          rcases hr : withRetry r (st.readLeaf p) with ⟨rres, m⟩
          cases rres with
          | error e =>
            have hval : walkAux st ig r (fuel + 1) p =
                (.error (.extractionFailed p e),
                  [⟨CallKind.listKids, p, n⟩, ⟨CallKind.readKV, p, m⟩]) := by
              rw [walkAux.eq_def]
              simp [hskip', hl, hr]
            rw [hval]
            constructor
            · intro c hc
              simp at hc
              rcases hc with hc | hc <;> simp [hc, hskip']
            · intro t ht
              simp at ht
          | ok kvs =>
            have hval : walkAux st ig r (fuel + 1) p =
                (.ok (some (.leaf (kvs.filter (fun kv => !shouldSkipKey ig kv.1)))),
                  [⟨CallKind.listKids, p, n⟩, ⟨CallKind.readKV, p, m⟩]) := by
              rw [walkAux.eq_def]
              simp [hskip', hl, hr]
            rw [hval]
            constructor
            · intro c hc
              simp at hc
              rcases hc with hc | hc <;> simp [hc, hskip']
            · intro t ht
              simp at ht
              subst ht
              constructor
              · intro q hq
                cases q with
                | nil => simpa using hskip'
                | cons s q' => simp [hasNodeB, childOf] at hq
              · intro q kvs' kv hleaf hmem
                cases q with
                | nil =>
                  simp [leafAt] at hleaf
                  subst hleaf
                  rcases List.mem_filter.mp hmem with ⟨_, hpred⟩
                  simpa using hpred
                | cons s q' =>
                  simp [leafAt, childOf] at hleaf
        | cons c0 cs0 =>
          rcases hk : walkKids (fun q => walkAux st ig r fuel q) p (c0 :: cs0) with ⟨kres, klog⟩
          have hkinv := walkKids_inv st ig r fuel ih (c0 :: cs0) p
          simp only [hk] at hkinv
          cases kres with
          | error e =>
            have hval : walkAux st ig r (fuel + 1) p =
                (.error e, ⟨CallKind.listKids, p, n⟩ :: klog) := by
              rw [walkAux.eq_def]
              simp [hskip', hl, hk]
            rw [hval]
            constructor
            · intro c hc
              rcases List.mem_cons.mp hc with hc | hc
              · simp [hc, hskip']
              · exact hkinv.1 c hc
            · intro t ht
              simp at ht
          | ok subs =>
            have hval : walkAux st ig r (fuel + 1) p =
                (.ok (some (.branch subs)), ⟨CallKind.listKids, p, n⟩ :: klog) := by
              rw [walkAux.eq_def]
              simp [hskip', hl, hk]
            rw [hval]
            constructor
            · intro c hc
              rcases List.mem_cons.mp hc with hc | hc
              · simp [hc, hskip']
              · exact hkinv.1 c hc
            · intro t ht
              simp at ht
              subst ht
              have hsub := hkinv.2 subs rfl
              constructor
              · intro q hq
                cases q with
                | nil => simpa using hskip'
                | cons s q' =>
                  simp only [hasNodeB, childOf] at hq
                  rcases hfind : findA subs s with _ | t2
                  · rw [hfind] at hq
                    simp at hq
                  · rw [hfind] at hq
                    simp at hq
                    have h2 := (hsub s t2 hfind).1 q' hq
                    simpa [List.append_assoc] using h2
              · intro q kvs' kv hleaf hmem
                cases q with
                | nil => simp [leafAt] at hleaf
                | cons s q' =>
                  simp only [leafAt, childOf] at hleaf
                  rcases hfind : findA subs s with _ | t2
                  · rw [hfind] at hleaf
                    simp at hleaf
                  · rw [hfind] at hleaf
                    exact (hsub s t2 hfind).2 q' kvs' kv hleaf hmem

/-- C4: for every path p in the configured ignoredPaths and every walk
started at or above p, the resulting tree has no node at p or under p, and
no store call is issued for p or any descendant; being under p is exact
segment-wise matching (List.isPrefixOf on segment lists). -/
theorem c4_ignored_paths_pruned :
    ∀ (st : Store) (ig : Ignore) (r fuel : Nat) (root pI : List String),
      pI ∈ ig.paths → root.isPrefixOf pI = true →
      (∀ c, c ∈ (walkAux st ig r fuel root).2 → pI.isPrefixOf c.path = false) ∧
      (∀ t q, (walkAux st ig r fuel root).1 = .ok (some t) → hasNodeB t q = true →
        pI.isPrefixOf (root ++ q) = false) := by
  intro st ig r fuel root pI hmem _hroot
  have hinv := walkAux_inv st ig r fuel root
  constructor
  · intro c hc
    have hns := hinv.1 c hc
    by_contra hpre
    have hpre' : pI.isPrefixOf c.path = true := by
      revert hpre
      cases pI.isPrefixOf c.path <;> simp
    have hskip : shouldSkipPath ig c.path = true := by
      unfold shouldSkipPath
      rw [List.any_eq_true]
      exact ⟨pI, hmem, hpre'⟩
    rw [hskip] at hns
    exact Bool.noConfusion hns
  · intro t q ht hq
    have hns := (hinv.2 t ht).1 q hq
    by_contra hpre
    have hpre' : pI.isPrefixOf (root ++ q) = true := by
      revert hpre
      cases pI.isPrefixOf (root ++ q) <;> simp
    have hskip : shouldSkipPath ig (root ++ q) = true := by
      unfold shouldSkipPath
      rw [List.any_eq_true]
      exact ⟨pI, hmem, hpre'⟩
    rw [hskip] at hns
    exact Bool.noConfusion hns

/-- Witness for C4: walking the concrete store stW from the root with
db/private ignored issues no call at or under db/private and yields a tree
with no node there. -/
theorem c4_ignored_paths_pruned_witness :
    [["db", "private"]].contains ["db", "private"] = true ∧
    ([] : List String).isPrefixOf ["db", "private"] = true ∧
    (∀ c, c ∈ (walkAux stW igPriv 5 4 []).2 →
      (["db", "private"]).isPrefixOf c.path = false) ∧
    (∀ t q, (walkAux stW igPriv 5 4 []).1 = .ok (some t) → hasNodeB t q = true →
      (["db", "private"]).isPrefixOf (([] : List String) ++ q) = false) := by
  refine ⟨by decide, by decide, ?_⟩
  exact c4_ignored_paths_pruned stW igPriv 5 4 [] ["db", "private"]
    (by simp [igPriv]) (by decide)

/-- C5: every leaf inserted into the ResultTree has every configured
ignored key dropped, regardless of the leaf path; and a leaf whose
children list is empty is recorded as a leaf holding exactly the filtered
keys, hence still present even when filtering leaves zero keys. -/
theorem c5_ignored_keys_filtered :
    (∀ (st : Store) (ig : Ignore) (r fuel : Nat) (root : List String) (t : RTree)
        (q : List String) (kvs : List (String × String)) (kv : String × String),
      (walkAux st ig r fuel root).1 = .ok (some t) →
      leafAt t q = some kvs → kv ∈ kvs → ig.keys.contains kv.1 = false) ∧
    (∀ (st : Store) (ig : Ignore) (k fuel : Nat) (p : List String)
        (kvs : List (String × String)),
      shouldSkipPath ig p = false →
      st.listChildren p 1 = .ok [] →
      st.readLeaf p 1 = .ok kvs →
      (walkAux st ig (k + 1) (fuel + 1) p).1 =
        .ok (some (.leaf (kvs.filter (fun kv => !shouldSkipKey ig kv.1))))) := by
  constructor
  · intro st ig r fuel root t q kvs kv ht hleaf hmem
    have hni := (walkAux_inv st ig r fuel root).2 t ht
    exact hni.2 q kvs kv hleaf hmem
  · intro st ig k fuel p kvs hskip hlist hread
    have hl : withRetry (k + 1) (st.listChildren p) = (.ok [], 1) := by
      unfold withRetry
      exact retryLoop_ok (st.listChildren p) [] 1 k hlist
    have hr : withRetry (k + 1) (st.readLeaf p) = (.ok kvs, 1) := by
      unfold withRetry
      exact retryLoop_ok (st.readLeaf p) kvs 1 k hread
    rw [walkAux.eq_def]
    simp [hskip, hl, hr]

/-- Witness for C5: walking the scenario store (leaf db with keys user
and pass, ignoredKeys contains pass) yields a tree whose db leaf retains
only user; and a leaf whose every key is ignored is still recorded as an
empty leaf. -/
theorem c5_ignored_keys_filtered_witness :
    (walkAux stDb igPass 5 3 []).1 =
      .ok (some (.branch [("db", .leaf [("user", "alice")])])) ∧
    igPass.keys.contains ("user", "alice").1 = false ∧
    shouldSkipPath igPass ["db"] = false ∧
    stDb.listChildren ["db"] 1 = .ok [] ∧
    stDb.readLeaf ["db"] 1 = .ok [("user", "alice"), ("pass", "s3cr3t")] ∧
    (walkAux (Store.mk stDb.listChildren (fun p a => if p = ["db"] then .ok [("pass", "x")] else stDb.readLeaf p a))
        igPass 5 2 ["db"]).1 = .ok (some (.leaf [])) := by
  refine ⟨rfl, ?_, rfl, rfl, rfl, ?_⟩
  · exact c5_ignored_keys_filtered.1 stDb igPass 5 3 []
      (.branch [("db", .leaf [("user", "alice")])]) ["db"] [("user", "alice")]
      ("user", "alice") rfl rfl (by simp)
  · have h := c5_ignored_keys_filtered.2
      (Store.mk stDb.listChildren (fun p a => if p = ["db"] then .ok [("pass", "x")] else stDb.readLeaf p a))
      igPass 4 1 ["db"] [("pass", "x")] rfl rfl rfl
    simpa [shouldSkipKey, igPass] using h

/-! ## Transform engine -/

mutual
/-- Deep-copying a document yields a structurally equal document. -/
theorem copyDoc_eq : (d : Doc) → copyDoc d = d
  | .str s => by simp [copyDoc]
  | .map es => by
    have h := copyEntries_eq es
    simp [copyDoc, h]

/-- Deep-copying mapping entries yields structurally equal entries. -/
theorem copyEntries_eq : (es : Entries) → copyEntries es = es
  | .enil => by simp [copyEntries]
  | .econs k v rest => by
    have h1 := copyDoc_eq v
    have h2 := copyEntries_eq rest
    simp [copyEntries, h1, h2]
end

/-- C6: applying the empty rule set to any document is the identity. -/
theorem c6_empty_ruleset_identity : ∀ d : Doc, TransformEngine.apply [] d = .ok d :=
  fun _ => rfl

/-- C7: the engine operates on a fresh working copy and is a pure
function of the rule set and the input, so the input document is left
unmodified and re-running the transform against the same source gives
identical results: applying to the deep copy coincides with applying to
the original, and the copy equals the original. -/
theorem c7_transform_pure :
    ∀ (rules : List Rule) (d : Doc),
      copyDoc d = d ∧
      TransformEngine.apply rules (copyDoc d) = TransformEngine.apply rules d := by
  intro rules d
  refine ⟨copyDoc_eq d, ?_⟩
  rw [copyDoc_eq d]

/-- Spec scenario: the rename rule from db.user to database.username on
the document with db.user = alice yields database.username = alice with no
remaining db key. -/
theorem scenario_rename :
    TransformEngine.apply [.move ["db", "user"] ["database", "username"]]
        (.map (.econs "db" (.map (.econs "user" (.str "alice") .enil)) .enil)) =
      .ok (.map (.econs "database" (.map (.econs "username" (.str "alice") .enil)) .enil)) :=
  rfl

/-- Spec scenario: a delete rule targeting a nonexistent path on the empty
document returns it unchanged and does not fail. -/
theorem scenario_delete_noop :
    TransformEngine.apply [.del ["x", "y"]] (.map .enil) = .ok (.map .enil) :=
  rfl

/-- Spec scenario: template substitution resolves present references to
their values and missing references to the empty string. -/
theorem scenario_template :
    substTemplate (.map (.econs "db" (.map (.econs "user" (.str "alice") .enil)) .enil))
        [.lit "postgres://", .ref ["db", "user"], .lit "@host"] = .ok "postgres://alice@host" ∧
    substTemplate (.map .enil)
        [.lit "postgres://", .ref ["db", "user"], .lit "@host"] = .ok "postgres://@host" :=
  ⟨rfl, rfl⟩

/-! ## The run command -/

/-- Every exit of the post-defer part of the run ends by removing the
output path captured when the defer statement executed. -/
theorem afterDefer_last (env : RunEnv) (output encoding fname s3path removeTarget : String)
    (pre : List Effect) :
    (afterDefer env output encoding fname s3path removeTarget pre).2.getLast? =
      some (.removedAll removeTarget) := by
  simp [afterDefer, List.getLast?_concat]

/-- The trace of the post-defer part starts with the effects already
performed. -/
theorem afterDefer_head (env : RunEnv) (output encoding fname s3path removeTarget : String)
    (a : Effect) (pre : List Effect) :
    ∃ rest, (afterDefer env output encoding fname s3path removeTarget (a :: pre)).2 =
      a :: rest :=
  ⟨_, rfl⟩

/-- When the dump step fails, the pipeline body performs no effect and
does not return nil. -/
theorem runBody_secrets_fail (env : RunEnv) (output encoding fname s3path outPath : String)
    (e : String) (h : env.secretsErr = some e) :
    (runBody env output encoding fname s3path outPath).2 = [] ∧
    (runBody env output encoding fname s3path outPath).1 ≠ .returned none := by
  unfold runBody
  cases ho : env.newOutputErr with
  | some e0 => simp
  | none =>
    cases hd : env.newDumperErr with
    | some e1 => simp
    | none => simp [h]

/-- C1: an S3 run that passes validation stages the dump in the freshly
created temporary directory rather than the user-supplied destination,
encrypts and uploads the artifact from that directory, and removes the
temporary directory when the run completes. -/
theorem c1_s3_staging :
    ∀ (env : RunEnv) (kmsKey encoding fname : String) (args : List String),
      env.clientErr = none →
      kmsKey ≠ "" →
      args.getD 1 "" ≠ "" →
      hasS3Scheme (args.getD 1 "") = true →
      env.tmpDirErr = false →
      env.newOutputErr = none → env.newDumperErr = none → env.secretsErr = none →
      env.encryptErr = none → env.uploadErr = none →
      hasS3Scheme (env.getPathForOutput env.tmpDir) = false →
      runE env "s3" kmsKey encoding fname args =
        (.returned none,
          [.tempDirCreated env.tmpDir,
            .dumpWritten (env.getPathForOutput env.tmpDir ++ "/" ++ fname ++ "." ++ encoding),
            .encrypted (env.getPathForOutput env.tmpDir ++ "/" ++ fname ++ "." ++ encoding),
            .uploaded (args.getD 1 "" ++ "/" ++ fname ++ "." ++ encoding),
            .removedAll env.tmpDir]) ∧
      env.getPathForOutput env.tmpDir ≠ args.getD 1 "" := by
  intro env kmsKey encoding fname args hc hk hp hsch htd h1 h2 h3 h4 h5 hloc
  constructor
  · have hp' : args[1]?.getD "" ≠ "" := by simpa using hp
    have hsch' : hasS3Scheme (args[1]?.getD "") = true := by simpa using hsch
    simp [runE, afterDefer, runBody, hc, hk, hp', hsch', htd, h1, h2, h3, h4, h5]
  · intro heq
    rw [heq, hsch] at hloc
    exact Bool.noConfusion hloc

/-- Witness for C1 at the all-success environment: staging directory
/tmp/vault-dump-123, destination s3://bucket/dir. -/
theorem c1_s3_staging_witness :
    envOk.clientErr = none ∧
    hasS3Scheme (["secret/", "s3://bucket/dir"].getD 1 "") = true ∧
    hasS3Scheme (envOk.getPathForOutput envOk.tmpDir) = false ∧
    runE envOk "s3" "arn:kms:key" "json" "vault-dump" ["secret/", "s3://bucket/dir"] =
      (.returned none,
        [.tempDirCreated "/tmp/vault-dump-123",
          .dumpWritten "/tmp/vault-dump-123/vault-dump.json",
          .encrypted "/tmp/vault-dump-123/vault-dump.json",
          .uploaded "s3://bucket/dir/vault-dump.json",
          .removedAll "/tmp/vault-dump-123"]) ∧
    envOk.getPathForOutput envOk.tmpDir ≠ ["secret/", "s3://bucket/dir"].getD 1 "" := by
  have h := c1_s3_staging envOk "arn:kms:key" "json" "vault-dump"
    ["secret/", "s3://bucket/dir"] rfl (by decide) (by decide) rfl rfl rfl rfl rfl rfl rfl rfl
  exact ⟨rfl, rfl, rfl, h.1, h.2⟩

/-- C2: every invocation that reaches the deferred cleanup statement ends
by applying os.RemoveAll to the outputPath captured at the defer: the
temporary staging directory for S3 runs, and the user-supplied destination
path (the second positional argument) for every other output mode,
including file. -/
theorem c2_cleanup_removes_output_path :
    ∀ (env : RunEnv) (output kmsKey encoding fname : String) (args : List String),
      env.clientErr = none →
      (output = "s3" →
        kmsKey ≠ "" ∧ args.getD 1 "" ≠ "" ∧ hasS3Scheme (args.getD 1 "") = true ∧
          env.tmpDirErr = false) →
      (runE env output kmsKey encoding fname args).2.getLast? =
        some (.removedAll (if output = "s3" then env.tmpDir else args.getD 1 "")) := by
  intro env output kmsKey encoding fname args hc hval
  by_cases hs3 : output = "s3"
  · subst hs3
    obtain ⟨hk, hp, hsch, htd⟩ := hval rfl
    have hp' : args[1]?.getD "" ≠ "" := by simpa using hp
    have hsch' : hasS3Scheme (args[1]?.getD "") = true := by simpa using hsch
    simp [runE, hc, hk, hp', hsch', htd, afterDefer_last]
  · simp [runE, hc, hs3, afterDefer_last]

/-- Witness for C2 in file mode: the user-supplied destination
/home/user/out is the final removal target. -/
theorem c2_cleanup_removes_output_path_witness :
    envOk.clientErr = none ∧
    (runE envOk "file" "" "json" "vault-dump" ["secret/", "/home/user/out"]).2.getLast? =
      some (.removedAll "/home/user/out") := by
  have h := c2_cleanup_removes_output_path envOk "file" "" "json" "vault-dump"
    ["secret/", "/home/user/out"] rfl (by intro hx; exact absurd hx (by decide))
  exact ⟨rfl, by simpa using h⟩

/-- C9: with the vault client created, an S3-mode run fails before any
dump or directory creation exactly when the KMS key is empty, the output
path is empty, or the output path does not begin with s3://; otherwise a
fresh temporary directory replaces the output path. -/
theorem c9_s3_validation :
    ∀ (env : RunEnv) (kmsKey encoding fname : String) (args : List String),
      env.clientErr = none →
      ((∃ e, (runE env "s3" kmsKey encoding fname args).1 = .returned (some e) ∧
          (runE env "s3" kmsKey encoding fname args).2 = []) ↔
        (kmsKey = "" ∨ args.getD 1 "" = "" ∨ hasS3Scheme (args.getD 1 "") = false)) ∧
      (kmsKey ≠ "" → args.getD 1 "" ≠ "" → hasS3Scheme (args.getD 1 "") = true →
        env.tmpDirErr = false →
        ∃ rest, (runE env "s3" kmsKey encoding fname args).2 =
          Effect.tempDirCreated env.tmpDir :: rest) := by
  intro env kmsKey encoding fname args hc
  constructor
  · constructor
    · rintro ⟨e, hout, htr⟩
      by_contra hbad
      push_neg at hbad
      obtain ⟨hk, hp, hsch⟩ := hbad
      have hsch' : hasS3Scheme (args[1]?.getD "") = true := by
        revert hsch
        simp only [List.getD_eq_getElem?_getD]
        cases hasS3Scheme (args[1]?.getD "") <;> simp
      have hp' : args[1]?.getD "" ≠ "" := by simpa using hp
      by_cases htd : env.tmpDirErr
      · rw [show (runE env "s3" kmsKey encoding fname args) = (.fatal, []) by
          simp [runE, hc, hk, hp', hsch', htd]] at hout
        exact RunOutcome.noConfusion hout
      · have htd' : env.tmpDirErr = false := by
          revert htd
          cases env.tmpDirErr <;> simp
        simp [runE, hc, hk, hp', hsch', htd', afterDefer] at htr
    · intro h
      by_cases hk : kmsKey = ""
      · exact ⟨"Error: KMS key must be specified for S3 upload",
          by simp [runE, hc, hk], by simp [runE, hc, hk]⟩
      · by_cases hp : args.getD 1 "" = ""
        · have hp' : args[1]?.getD "" = "" := by simpa using hp
          exact ⟨"Error: Must specify an output path for S3 upload",
            by simp [runE, hc, hk, hp'], by simp [runE, hc, hk, hp']⟩
        · have hp' : args[1]?.getD "" ≠ "" := by simpa using hp
          have hsch : hasS3Scheme (args[1]?.getD "") = false := by
            rcases h with h | h | h
            · exact absurd h hk
            · exact absurd h hp
            · simpa using h
          exact ⟨"Error: Output path for S3 upload must begin with s3://",
            by simp [runE, hc, hk, hp', hsch], by simp [runE, hc, hk, hp', hsch]⟩
  · intro hk hp hsch htd
    have hp' : args[1]?.getD "" ≠ "" := by simpa using hp
    have hsch' : hasS3Scheme (args[1]?.getD "") = true := by simpa using hsch
    have h := afterDefer_head env "s3" encoding fname (args[1]?.getD "") env.tmpDir
      (.tempDirCreated env.tmpDir) []
    rcases h with ⟨rest, hrest⟩
    refine ⟨rest, ?_⟩
    rw [show (runE env "s3" kmsKey encoding fname args) =
      afterDefer env "s3" encoding fname (args[1]?.getD "") env.tmpDir
        [.tempDirCreated env.tmpDir] by simp [runE, hc, hk, hp', hsch', htd]]
    exact hrest

/-- Witness for C9: with an empty KMS key the run errors with an empty
trace; with a valid configuration the trace starts by creating the
temporary directory. -/
theorem c9_s3_validation_witness :
    envOk.clientErr = none ∧
    ((∃ e, (runE envOk "s3" "" "json" "vault-dump" ["secret/", "s3://b/d"]).1 =
        .returned (some e) ∧
      (runE envOk "s3" "" "json" "vault-dump" ["secret/", "s3://b/d"]).2 = []) ↔
      (("" : String) = "" ∨ (["secret/", "s3://b/d"].getD 1 "") = "" ∨
        hasS3Scheme (["secret/", "s3://b/d"].getD 1 "") = false)) ∧
    (∃ rest, (runE envOk "s3" "k" "json" "vault-dump" ["secret/", "s3://b/d"]).2 =
      Effect.tempDirCreated envOk.tmpDir :: rest) := by
  refine ⟨rfl, (c9_s3_validation envOk "" "json" "vault-dump" ["secret/", "s3://b/d"] rfl).1, ?_⟩
  exact (c9_s3_validation envOk "k" "json" "vault-dump" ["secret/", "s3://b/d"] rfl).2
    (by decide) (by decide) rfl rfl

/-! ## Failure reporting and loadJson -/

/-- A successful loadJson means the file was read and parsed as a
top-level JSON object. -/
theorem loadJson_ok_inv (ctx : TransformCtx) (p : String) (m : Entries)
    (h : loadJson ctx p = (m, none)) :
    ∃ s, ctx.readFile p = .ok s ∧ ctx.parseJson s = .ok (.jObj m) := by
  cases hr : ctx.readFile p with
  | error e =>
    have hv : loadJson ctx p = (.enil, some e) := by simp [loadJson, hr]
    rw [hv] at h
    simp at h
  | ok s =>
    cases hp : ctx.parseJson s with
    | error e =>
      have hv : loadJson ctx p = (.enil, some e) := by
        simp [loadJson, unmarshalMap, hr, hp]
      rw [hv] at h
      simp at h
    | ok top =>
      cases top with
      | jObj m2 =>
        have hv : loadJson ctx p = (m2, none) := by
          simp [loadJson, unmarshalMap, hr, hp]
        rw [hv] at h
        simp at h
        rw [h] at hp
        exact ⟨s, rfl, hp⟩
      | jNonObj d =>
        have hv : loadJson ctx p =
            (.enil, some ("json: cannot unmarshal " ++ d ++
              " into Go value of type map[string]interface\x7b\x7d")) := by
          simp [loadJson, unmarshalMap, hr, hp]
        rw [hv] at h
        simp at h

/-- C8: a failing Execute is reported and the process exits with status
1; a failing transform subcommand prints nothing; a failing dump leaves no
dump artifact in the run trace and the run does not return success. -/
theorem c8_failure_reporting :
    (∀ e, mainRun (some e) = (1, some e)) ∧
    (∀ (ctx : TransformCtx) (applyPath : String) (args : List String) (e : String),
      doTransform ctx applyPath args = .error e →
      transformOutput ctx applyPath args = none) ∧
    (∀ (env : RunEnv) (output kmsKey encoding fname : String) (args : List String)
        (e : String),
      env.clientErr = none → env.secretsErr = some e →
      (runE env output kmsKey encoding fname args).1 ≠ .returned none ∧
      ∀ pth, Effect.dumpWritten pth ∉ (runE env output kmsKey encoding fname args).2) := by
  refine ⟨fun e => rfl, ?_, ?_⟩
  · intro ctx applyPath args e h
    simp [transformOutput, h]
  · intro env output kmsKey encoding fname args e hc hs
    by_cases hs3 : output = "s3"
    · subst hs3
      by_cases hk : kmsKey = ""
      · exact ⟨by simp [runE, hc, hk], fun pth => by simp [runE, hc, hk]⟩
      · by_cases hp : args[1]?.getD "" = ""
        · exact ⟨by simp [runE, hc, hk, hp], fun pth => by simp [runE, hc, hk, hp]⟩
        · by_cases hsch : hasS3Scheme (args[1]?.getD "") = false
          · exact ⟨by simp [runE, hc, hk, hp, hsch],
              fun pth => by simp [runE, hc, hk, hp, hsch]⟩
          · have hsch' : hasS3Scheme (args[1]?.getD "") = true := by
              revert hsch
              cases hasS3Scheme (args[1]?.getD "") <;> simp
            by_cases htd : env.tmpDirErr
            · exact ⟨by simp [runE, hc, hk, hp, hsch', htd],
                fun pth => by simp [runE, hc, hk, hp, hsch', htd]⟩
            · have htd' : env.tmpDirErr = false := by
                revert htd
                cases env.tmpDirErr <;> simp
              have hre : runE env "s3" kmsKey encoding fname args =
                  afterDefer env "s3" encoding fname (args[1]?.getD "") env.tmpDir
                    [.tempDirCreated env.tmpDir] := by
                simp [runE, hc, hk, hp, hsch', htd']
              rw [hre]
              have hb := runBody_secrets_fail env "s3" encoding fname (args[1]?.getD "")
                (env.getPathForOutput env.tmpDir) e hs
              constructor
              · simpa [afterDefer] using hb.2
              · intro pth
                simp [afterDefer, hb.1]
    · have hre : runE env output kmsKey encoding fname args =
          afterDefer env output encoding fname "" (args[1]?.getD "") [] := by
        simp [runE, hc, hs3]
      rw [hre]
      have hb := runBody_secrets_fail env output encoding fname ""
        (env.getPathForOutput (args[1]?.getD "")) e hs
      constructor
      · simpa [afterDefer] using hb.2
      · intro pth
        simp [afterDefer, hb.1]

/-- Witness for C8: a concrete failing transform prints nothing; the run
with a failing dump step writes no dump artifact and does not succeed. -/
theorem c8_failure_reporting_witness :
    mainRun (some "boom") = (1, some "boom") ∧
    doTransform ctxReadFail "t.json" ["s.json"] = .error "open: no such file" ∧
    transformOutput ctxReadFail "t.json" ["s.json"] = none ∧
    envSecretsBoom.clientErr = none ∧
    envSecretsBoom.secretsErr = some "dump failed" ∧
    ((runE envSecretsBoom "file" "" "json" "vault-dump" ["secret/", "/out"]).1 ≠
        .returned none ∧
      ∀ pth, Effect.dumpWritten pth ∉
        (runE envSecretsBoom "file" "" "json" "vault-dump" ["secret/", "/out"]).2) :=
  ⟨c8_failure_reporting.1 "boom", rfl,
    c8_failure_reporting.2.1 ctxReadFail "t.json" ["s.json"] "open: no such file" rfl,
    rfl, rfl,
    c8_failure_reporting.2.2 envSecretsBoom "file" "" "json" "vault-dump"
      ["secret/", "/out"] "dump failed" rfl rfl⟩

/-- C10: loadJson returns the (non-nil) empty map together with the error
whenever reading fails, whenever parsing fails, and whenever the top-level
JSON value is not an object; the transform subcommand propagates a load
error unchanged, and it prints output only when both files parse as
top-level JSON objects. -/
theorem c10_loadjson_errors :
    (∀ (ctx : TransformCtx) (p e : String),
      ctx.readFile p = .error e → loadJson ctx p = (.enil, some e)) ∧
    (∀ (ctx : TransformCtx) (p s e : String),
      ctx.readFile p = .ok s → ctx.parseJson s = .error e →
      loadJson ctx p = (.enil, some e)) ∧
    (∀ (ctx : TransformCtx) (p s d : String),
      ctx.readFile p = .ok s → ctx.parseJson s = .ok (.jNonObj d) →
      ∃ e, loadJson ctx p = (.enil, some e)) ∧
    (∀ (ctx : TransformCtx) (applyPath : String) (args : List String) (e : String)
        (m : Entries),
      loadJson ctx applyPath = (m, some e) → doTransform ctx applyPath args = .error e) ∧
    (∀ (ctx : TransformCtx) (applyPath : String) (args : List String) (out : String),
      transformOutput ctx applyPath args = some out →
      (∃ s m, ctx.readFile applyPath = .ok s ∧ ctx.parseJson s = .ok (.jObj m)) ∧
      (∃ s m, ctx.readFile (args.getD 0 "") = .ok s ∧
        ctx.parseJson s = .ok (.jObj m))) := by
  refine ⟨?_, ?_, ?_, ?_, ?_⟩
  · intro ctx p e h
    simp [loadJson, h]
  · intro ctx p s e hr hp
    simp [loadJson, unmarshalMap, hr, hp]
  · intro ctx p s d hr hp
    exact ⟨"json: cannot unmarshal " ++ d ++ " into Go value of type map[string]interface\x7b\x7d",
      by simp [loadJson, unmarshalMap, hr, hp]⟩
  · intro ctx applyPath args e m h
    simp [doTransform, h]
  · intro ctx applyPath args out h
    unfold transformOutput at h
    cases hdt : doTransform ctx applyPath args with
    | error e =>
      rw [hdt] at h
      simp at h
    | ok sres =>
      unfold doTransform at hdt
      rcases hl1 : loadJson ctx applyPath with ⟨m1, e1⟩
      rw [hl1] at hdt
      cases e1 with
      | some e => simp at hdt
      | none =>
        rcases hl2 : loadJson ctx (args.getD 0 "") with ⟨m2, e2⟩
        rw [hl2] at hdt
        cases e2 with
        | some e => simp at hdt
        | none =>
          obtain ⟨s1, hr1, hp1⟩ := loadJson_ok_inv ctx applyPath m1 hl1
          obtain ⟨s2, hr2, hp2⟩ := loadJson_ok_inv ctx (args.getD 0 "") m2 hl2
          exact ⟨⟨s1, m1, hr1, hp1⟩, ⟨s2, m2, hr2, hp2⟩⟩

/-- Witness for C10: the failing-read context yields the empty map with
the error; the succeeding context prints and both its files parse as
objects. -/
theorem c10_loadjson_errors_witness :
    ctxReadFail.readFile "x.json" = .error "open: no such file" ∧
    loadJson ctxReadFail "x.json" = (.enil, some "open: no such file") ∧
    transformOutput ctxOk "t.json" ["s.json"] = some "\x7b\x7d" ∧
    (∃ s m, ctxOk.readFile "t.json" = .ok s ∧ ctxOk.parseJson s = .ok (.jObj m)) := by
  refine ⟨rfl, c10_loadjson_errors.1 ctxReadFail "x.json" "open: no such file" rfl, rfl, ?_⟩
  exact (c10_loadjson_errors.2.2.2.2 ctxOk "t.json" ["s.json"] "\x7b\x7d" rfl).1
